import Mathlib

/-
Verification of the Retrieval-Normalization-Denormalization pipeline of
`Get_JIRA_comment_data.py`.

JSON values flowing through the pipeline are modelled by the inductive type
`Val` (null, booleans, integers, strings, arrays, objects).  Python dicts
become association lists, Python `==` on these values is structural equality
(`Val.beq`), and code that can raise is modelled in `Except Unit`.
-/

inductive Val where
  | vnull
  | vbool (b : Bool)
  | vint (n : Int)
  | vstr (s : String)
  | vlist (elems : List Val)
  | vdict (entries : List (String × Val))
deriving Repr

mutual

/-- Structural equality on JSON values, mirroring Python `==` on the
dict/list/str/int/bool/None values the script manipulates. -/
def Val.beq : Val → Val → Bool
  | .vnull, .vnull => true
  | .vbool a, .vbool b => a == b
  | .vint a, .vint b => a == b
  | .vstr a, .vstr b => a == b
  | .vlist a, .vlist b => Val.beqList a b
  | .vdict a, .vdict b => Val.beqEntries a b
  | _, _ => false

def Val.beqList : List Val → List Val → Bool
  | [], [] => true
  | a :: as, b :: bs => Val.beq a b && Val.beqList as bs
  | _, _ => false

def Val.beqEntries : List (String × Val) → List (String × Val) → Bool
  | [], [] => true
  | (k, v) :: es, (k', v') :: es' => k == k' && Val.beq v v' && Val.beqEntries es es'
  | _, _ => false

end

mutual

theorem Val.beq_iff : ∀ a b : Val, Val.beq a b = true ↔ a = b
  | .vnull, .vnull => by simp [Val.beq]
  | .vbool _, .vbool _ => by simp [Val.beq]
  | .vint _, .vint _ => by simp [Val.beq]
  | .vstr _, .vstr _ => by simp [Val.beq]
  | .vlist a, .vlist b => by
      simp only [Val.beq, Val.vlist.injEq]
      exact Val.beqList_iff a b
  | .vdict a, .vdict b => by
      simp only [Val.beq, Val.vdict.injEq]
      exact Val.beqEntries_iff a b
  | .vnull, .vbool _ => by simp [Val.beq]
  | .vnull, .vint _ => by simp [Val.beq]
  | .vnull, .vstr _ => by simp [Val.beq]
  | .vnull, .vlist _ => by simp [Val.beq]
  | .vnull, .vdict _ => by simp [Val.beq]
  | .vbool _, .vnull => by simp [Val.beq]
  | .vbool _, .vint _ => by simp [Val.beq]
  | .vbool _, .vstr _ => by simp [Val.beq]
  | .vbool _, .vlist _ => by simp [Val.beq]
  | .vbool _, .vdict _ => by simp [Val.beq]
  | .vint _, .vnull => by simp [Val.beq]
  | .vint _, .vbool _ => by simp [Val.beq]
  | .vint _, .vstr _ => by simp [Val.beq]
  | .vint _, .vlist _ => by simp [Val.beq]
  | .vint _, .vdict _ => by simp [Val.beq]
  | .vstr _, .vnull => by simp [Val.beq]
  | .vstr _, .vbool _ => by simp [Val.beq]
  | .vstr _, .vint _ => by simp [Val.beq]
  | .vstr _, .vlist _ => by simp [Val.beq]
  | .vstr _, .vdict _ => by simp [Val.beq]
  | .vlist _, .vnull => by simp [Val.beq]
  | .vlist _, .vbool _ => by simp [Val.beq]
  | .vlist _, .vint _ => by simp [Val.beq]
  | .vlist _, .vstr _ => by simp [Val.beq]
  | .vlist _, .vdict _ => by simp [Val.beq]
  | .vdict _, .vnull => by simp [Val.beq]
  | .vdict _, .vbool _ => by simp [Val.beq]
  | .vdict _, .vint _ => by simp [Val.beq]
  | .vdict _, .vstr _ => by simp [Val.beq]
  | .vdict _, .vlist _ => by simp [Val.beq]

theorem Val.beqList_iff : ∀ a b : List Val, Val.beqList a b = true ↔ a = b
  | [], [] => by simp [Val.beqList]
  | a :: as, b :: bs => by
      simp only [Val.beqList, Bool.and_eq_true, List.cons.injEq]
      exact and_congr (Val.beq_iff a b) (Val.beqList_iff as bs)
  | [], _ :: _ => by simp [Val.beqList]
  | _ :: _, [] => by simp [Val.beqList]

theorem Val.beqEntries_iff : ∀ a b : List (String × Val), Val.beqEntries a b = true ↔ a = b
  | [], [] => by simp [Val.beqEntries]
  | (k, v) :: es, (k', v') :: es' => by
      simp only [Val.beqEntries, Bool.and_eq_true, List.cons.injEq, Prod.mk.injEq, beq_iff_eq]
      rw [Val.beq_iff v v', Val.beqEntries_iff es es']
  | [], _ :: _ => by simp [Val.beqEntries]
  | _ :: _, [] => by simp [Val.beqEntries]

end

instance : DecidableEq Val := fun a b => decidable_of_iff (Val.beq a b = true) (Val.beq_iff a b)

theorem Val.beq_self (a : Val) : Val.beq a a = true := (Val.beq_iff a a).mpr rfl

theorem Val.beq_eq_false_iff (a b : Val) : Val.beq a b = false ↔ a ≠ b := by
  rw [← Bool.not_eq_true, not_iff_not]
  exact Val.beq_iff a b

/-- The sentinel default string of the script: `"字段内容为空"` ("field is empty"). -/
def sentinelS : String := "字段内容为空"

/-- The sentinel default as a JSON value. -/
def sentinelV : Val := Val.vstr sentinelS

/-- Python `d.get(k)` on a dict modelled as an association list
(first matching key wins; Python dicts have unique keys). -/
def dictGet (entries : List (String × Val)) (k : String) : Option Val :=
  (entries.find? (fun e => e.fst == k)).map (fun e => e.snd)

/-- Python `keys.split('.')` on the character list of `keys`: splits at every
dot and keeps empty pieces, so `""` yields `[[]]` like `"".split('.') == [""]`. -/
def splitDotsGo : List Char → List Char → List (List Char)
  | cur, [] => [cur.reverse]
  | cur, c :: cs => if c = '.' then cur.reverse :: splitDotsGo [] cs else splitDotsGo (c :: cur) cs

/-- `keys.split('.')` as a list of strings. -/
def splitDots (keys : String) : List String :=
  (splitDotsGo [] keys.data).map String.mk

/-- The final line of `safe_get`:
`return data if data not in [None, ""] else default`. -/
def sgFinal (dflt d : Val) : Val :=
  if Val.beq d Val.vnull || Val.beq d (Val.vstr "") then dflt else d

/-- The `for key in keys.split('.')` loop of `safe_get`:
on a dict, `data = data.get(key, default)`; on anything else return the
default immediately; on `data == default` break out of the loop (and hence
fall through to the final `not in [None, ""]` check). -/
def safe_get_go (dflt : Val) : Val → List String → Val
  | d, [] => sgFinal dflt d
  | d, k :: rest =>
    match d with
    | .vdict es =>
      let d' := (dictGet es k).getD dflt
      if Val.beq d' dflt then sgFinal dflt d' else safe_get_go dflt d' rest
    | _ => dflt

/-- `safe_get(data, keys, default)` from the script: safe nested-dict lookup
along a dotted path with a default for absent/null/empty values. -/
def safe_get (data : Val) (keys : String) (dflt : Val) : Val :=
  safe_get_go dflt data (splitDots keys)

/-- Specification-level full descent along a key path: `some v` when every
step goes through a dict that has the key, `none` otherwise.  Used to state
what value `safe_get` finds. -/
def descendPath : Val → List String → Option Val
  | v, [] => some v
  | .vdict es, k :: rest =>
    match dictGet es k with
    | some v => descendPath v rest
    | none => none
  | _, _ :: _ => none

/-- The broken-down result of `datetime.strptime(s, "%Y-%m-%dT%H:%M:%S.%f%z")`:
calendar fields, microseconds, and the UTC offset in microseconds. -/
structure PyDateTime where
  year : Nat
  month : Nat
  day : Nat
  hour : Nat
  minute : Nat
  second : Nat
  micro : Nat
  offMicro : Int
deriving DecidableEq, Repr

/-- Greedily take up to `n` leading decimal digits of a character list
(the regex `\d{1,n}` with a non-digit follower, as in `strptime`). -/
def grabDigits : Nat → List Char → (List Char × List Char)
  | 0, l => ([], l)
  | _ + 1, [] => ([], [])
  | n + 1, c :: cs =>
    if c.isDigit then
      let (ds, r) := grabDigits n cs
      (c :: ds, r)
    else ([], c :: cs)

/-- Decimal value of a digit list. -/
def digitsVal (ds : List Char) : Nat :=
  ds.foldl (fun a c => a * 10 + (c.toNat - 48)) 0

/-- The `%Y` field: exactly four digits (CPython compiles `%Y` to
`\d\d\d\d`). -/
def parseYear : List Char → Option (Nat × List Char)
  | a :: b :: c :: d :: r =>
    if a.isDigit && b.isDigit && c.isDigit && d.isDigit then
      some (digitsVal [a, b, c, d], r)
    else none
  | _ => none

/-- A two-digit-or-one-digit `strptime` field: the two-digit alternatives
(characterised by `two` on the numeric value) come first in the pattern, the
one-digit alternatives (`one`) after.  Because the character following each
such field in this format is a non-digit literal, taking the two-digit
alternative greedily when it applies is equivalent to the regex
backtracking. -/
def twoOrOne (two one : Nat → Bool) : List Char → Option (Nat × List Char)
  | c1 :: c2 :: r =>
    if c1.isDigit && c2.isDigit && two (digitsVal [c1, c2]) then
      some (digitsVal [c1, c2], r)
    else if c1.isDigit && one (digitsVal [c1]) then some (digitsVal [c1], c2 :: r)
    else none
  | [c1] => if c1.isDigit && one (digitsVal [c1]) then some (digitsVal [c1], []) else none
  | [] => none

/-- The `%d` field: `3[01]|[12]\d|0[1-9]|[1-9]| [1-9]` — two digits 01-31,
one digit 1-9, or a space followed by a digit 1-9. -/
def parseDay (l : List Char) : Option (Nat × List Char) :=
  match l with
  | ' ' :: c2 :: r =>
    if c2.isDigit && 1 ≤ digitsVal [c2] then some (digitsVal [c2], r) else none
  | _ => twoOrOne (fun v => 1 ≤ v && v ≤ 31) (fun v => 1 ≤ v && v ≤ 9) l

/-- An exact literal character of the format string. -/
def expectChar (c : Char) : List Char → Option (List Char)
  | x :: xs => if x = c then some xs else none
  | [] => none

/-- The literal `T` of the format; `strptime` matches literals
case-insensitively, so `t` is accepted too. -/
def expectT : List Char → Option (List Char)
  | x :: xs => if x = 'T' ∨ x = 't' then some xs else none
  | [] => none

/-- The `%f` field: 1 to 6 digits, right-padded to microseconds. -/
def fracField (l : List Char) : Option (Nat × List Char) :=
  let (ds, r) := grabDigits 6 l
  if ds.isEmpty then none else some (digitsVal ds * 10 ^ (6 - ds.length), r)

/-- Exactly two digits (`\d\d`, the hour part of `%z`). -/
def parseTwo : List Char → Option (Nat × List Char)
  | a :: b :: r => if a.isDigit ∧ b.isDigit then some (digitsVal [a, b], r) else none
  | _ => none

/-- Exactly two digits with the first in `[0-5]` (`[0-5]\d`, the minute and
second parts of `%z`): the values 00-59. -/
def parseSixty : List Char → Option (Nat × List Char)
  | a :: b :: r =>
    if a.isDigit && b.isDigit && digitsVal [a, b] ≤ 59 then some (digitsVal [a, b], r)
    else none
  | _ => none

/-- Consume one colon if present (the `:?` parts of the `%z` pattern). -/
def skipColon : List Char → List Char
  | ':' :: r => r
  | l => l

/-- The optional seconds part `(:?[0-5]\d(\.\d{1,6})?)?` of the `%z`
pattern. Returns seconds, fractional microseconds and the remainder; `none`
when the group does not match (in which case the caller requires end of
input). -/
def parseTZRest (l : List Char) : Option (Nat × Nat × List Char) :=
  match parseSixty (skipColon l) with
  | none => none
  | some (ss, r) =>
    match r with
    | '.' :: r2 =>
      let (ds, r3) := grabDigits 6 r2
      if ds.isEmpty then none else some (ss, digitsVal ds * 10 ^ (6 - ds.length), r3)
    | _ => some (ss, 0, r)

/-- The `%z` field: `Z`, or `[+-]\d\d:?[0-5]\d(:?[0-5]\d(\.\d{1,6})?)?`,
consuming the rest of the string; the offset must be strictly less than 24
hours or `timezone(timedelta(...))` raises and the parse fails. -/
def parseTZ : List Char → Option Int
  | ['Z'] => some 0
  | c :: r =>
    if c = '+' ∨ c = '-' then
      match parseTwo r with
      | none => none
      | some (hh, r1) =>
        match parseSixty (skipColon r1) with
        | none => none
        | some (mm, r2) =>
          let (ss, us, rem) :=
            match parseTZRest r2 with
            | some x => x
            | none => (0, 0, r2)
          if rem.isEmpty then
            let total : Int := (((hh * 3600 + mm * 60 + ss) * 1000000 + us : Nat) : Int)
            if total < 86400000000 then some (if c = '-' then -total else total) else none
          else none
    else none
  | [] => none

/-- Whether `year` is a Gregorian leap year. -/
def isLeap (y : Nat) : Bool :=
  y % 4 == 0 && (y % 100 != 0 || y % 400 == 0)

/-- Days in a month, as validated by the `datetime` constructor. -/
def daysInMonth (y m : Nat) : Nat :=
  if m = 2 then (if isLeap y then 29 else 28)
  else if m = 4 ∨ m = 6 ∨ m = 9 ∨ m = 11 then 30
  else 31

/-- `datetime.strptime(s, "%Y-%m-%dT%H:%M:%S.%f%z")`: match the fixed format
against the whole string, then validate the ranges the `datetime` constructor
enforces (`MINYEAR`/`MAXYEAR`, month, day, hour, minute, second). `none`
models the `ValueError`/`TypeError` that the bare `except` of `convert_time`
catches. -/
def parseJiraTime (s : String) : Option PyDateTime := do
  let (y, r1) ← parseYear s.data
  let r2 ← expectChar '-' r1
  let (mo, r3) ← twoOrOne (fun v => 1 ≤ v && v ≤ 12) (fun v => 1 ≤ v && v ≤ 9) r2
  let r4 ← expectChar '-' r3
  let (d, r5) ← parseDay r4
  let r6 ← expectT r5
  let (h, r7) ← twoOrOne (fun v => v ≤ 23) (fun _ => true) r6
  let r8 ← expectChar ':' r7
  let (mi, r9) ← twoOrOne (fun v => v ≤ 59) (fun _ => true) r8
  let r10 ← expectChar ':' r9
  let (ss, r11) ← twoOrOne (fun v => v ≤ 61) (fun _ => true) r10
  let r12 ← expectChar '.' r11
  let (f, r13) ← fracField r12
  let off ← parseTZ r13
  if 1 ≤ y ∧ y ≤ 9999 ∧ 1 ≤ mo ∧ mo ≤ 12 ∧ 1 ≤ d ∧ d ≤ daysInMonth y mo ∧
      h ≤ 23 ∧ mi ≤ 59 ∧ ss ≤ 59 then
    some ⟨y, mo, d, h, mi, ss, f, off⟩
  else none

/-- Two-digit zero-padded rendering (`%m`, `%d`, `%H`, `%M`, `%S`). -/
def pad2 (n : Nat) : String :=
  ⟨[Nat.digitChar (n / 10 % 10), Nat.digitChar (n % 10)]⟩

/-- Four-digit rendering of a year in `[1000, 9999]`. -/
def pad4 (n : Nat) : String :=
  ⟨[Nat.digitChar (n / 1000 % 10), Nat.digitChar (n / 100 % 10),
    Nat.digitChar (n / 10 % 10), Nat.digitChar (n % 10)]⟩

/-- glibc `%Y`: the year rendered unpadded (so 1-3 characters below 1000,
4 characters for 1000-9999; the parser's four-digit `%Y` field keeps every
reachable year at or below 9999). -/
def yearStr (y : Nat) : String :=
  if y < 10 then ⟨[Nat.digitChar y]⟩
  else if y < 100 then ⟨[Nat.digitChar (y / 10), Nat.digitChar (y % 10)]⟩
  else if y < 1000 then
    ⟨[Nat.digitChar (y / 100), Nat.digitChar (y / 10 % 10), Nat.digitChar (y % 10)]⟩
  else pad4 y

/-- `dt.strftime("%Y-%m-%d %H:%M:%S")`: the canonical display form; the
fractional seconds and the UTC offset are dropped.  glibc leaves the year
unpadded while the other fields are zero-padded to two digits. -/
def strftimeCanon (dt : PyDateTime) : String :=
  yearStr dt.year ++ "-" ++ pad2 dt.month ++ "-" ++ pad2 dt.day ++ " " ++
    pad2 dt.hour ++ ":" ++ pad2 dt.minute ++ ":" ++ pad2 dt.second

/-- `convert_time(jira_time)` from the script: try to parse the fixed JIRA
format and re-render canonically; on any failure (wrong format, not a
string) return the input unchanged. -/
def convert_time (v : Val) : Val :=
  match v with
  | .vstr s =>
    match parseJiraTime s with
    | some dt => .vstr (strftimeCanon dt)
    | none => v
  | _ => v

/-- One normalized comment record: `{'body': ..., 'author': ..., 'created': ...}`. -/
structure CommentR where
  body : Val
  author : Val
  created : Val
deriving DecidableEq, Repr

/-- One normalized issue record as built by `process_issues`: the `base`
dict plus the processed `comment_data` list. -/
structure Item where
  key : Val
  type : Val
  summary : Val
  created : Val
  created_year : Val
  created_month : Val
  status : Val
  resolution : Val
  environment : Val
  description : Val
  comments : Val
  comment_data : List CommentR
deriving DecidableEq, Repr

/-- Python slicing `v[start:stop]` (with `0 ≤ start ≤ stop`): works by
characters on strings and by elements on lists, raises `TypeError` on
anything else. -/
def pySliceVal (v : Val) (start stop : Nat) : Except Unit Val :=
  match v with
  | .vstr s => .ok (.vstr ⟨(s.data.drop start).take (stop - start)⟩)
  | .vlist l => .ok (.vlist ((l.drop start).take (stop - start)))
  | _ => .error ()

/-- The inner comment loop body of `process_issues`: one raw comment to one
`CommentR`, each field individually defaulted via `safe_get`. -/
def mkCommentR (c : Val) : CommentR :=
  { body := safe_get c "body" sentinelV
    author := safe_get c "author.displayName" sentinelV
    created := convert_time (safe_get c "created" sentinelV) }

/-- `if base['comments'] and isinstance(base['comments'], list): for comment
in base['comments']: ...` — a truthy list is mapped element-wise, anything
else (including the empty list) yields no comment records. -/
def commentsOf (v : Val) : List CommentR :=
  match v with
  | .vlist [] => []
  | .vlist l => l.map mkCommentR
  | _ => []

/-- Normalization of one raw issue (the body of the `for issue in issues`
loop of `process_issues`).  `.error ()` models an exception escaping the
loop body into the per-issue `except`: `issue.get` raises on a non-dict
issue, and the `created[:4]` / `created[5:7]` slices raise on an
unsliceable `created` value. -/
def process_one (issue : Val) : Except Unit Item :=
  match issue with
  | .vdict es =>
    let fields := (dictGet es "fields").getD (Val.vdict [])
    let createdV := convert_time (safe_get fields "created" sentinelV)
    let commentsV := safe_get fields "comment.comments" (Val.vlist [])
    match (if Val.beq createdV sentinelV then Except.ok (sentinelV, sentinelV)
           else
             match pySliceVal createdV 0 4, pySliceVal createdV 5 7 with
             | .ok y, .ok m => Except.ok (y, m)
             | .error e, _ => Except.error e
             | _, .error e => Except.error e) with
    | .error e => Except.error e
    | .ok (cy, cm) =>
      Except.ok
        { key := safe_get (Val.vdict es) "key" sentinelV
          type := safe_get fields "issuetype.name" sentinelV
          summary := safe_get fields "summary" sentinelV
          created := createdV
          created_year := cy
          created_month := cm
          status := safe_get fields "status.name" sentinelV
          resolution := safe_get fields "resolution.name" sentinelV
          environment := safe_get fields "environment" sentinelV
          description := safe_get fields "description" sentinelV
          comments := commentsV
          comment_data := commentsOf commentsV }
  | _ => Except.error ()

instance {ε α : Type} [DecidableEq ε] [DecidableEq α] : DecidableEq (Except ε α) :=
  fun a b =>
    match a, b with
    | .ok x, .ok y => decidable_of_iff (x = y) (by simp)
    | .error x, .error y => decidable_of_iff (x = y) (by simp)
    | .ok _, .error _ => isFalse (by simp)
    | .error _, .ok _ => isFalse (by simp)

/-- `process_issues(issues)`: normalize every raw issue, skipping (with a
printed report) any issue whose normalization raises, and keep going. -/
def process_issues : List Val → List Item
  | [] => []
  | i :: rest =>
    match process_one i with
    | .ok item => item :: process_issues rest
    | .error _ => process_issues rest

/-- One flat export row of `format_dataframe`: the ten scalar base fields
plus the three comment columns. -/
structure Row where
  key : Val
  type : Val
  summary : Val
  created : Val
  created_year : Val
  created_month : Val
  status : Val
  resolution : Val
  environment : Val
  description : Val
  comment : Val
  comment_author : Val
  comment_created : Val
deriving DecidableEq, Repr

/-- The placeholder row for an issue with no comments: the comment column
carries the "no comments" marker, the other two comment columns are empty
strings. -/
def placeholder_row (it : Item) : Row :=
  { key := it.key, type := it.type, summary := it.summary, created := it.created
    created_year := it.created_year, created_month := it.created_month
    status := it.status, resolution := it.resolution
    environment := it.environment, description := it.description
    comment := Val.vstr "该issue无comment"
    comment_author := Val.vstr ""
    comment_created := Val.vstr "" }

/-- One row per comment: a copy of the base fields updated with the comment
columns. -/
def comment_row (it : Item) (c : CommentR) : Row :=
  { key := it.key, type := it.type, summary := it.summary, created := it.created
    created_year := it.created_year, created_month := it.created_month
    status := it.status, resolution := it.resolution
    environment := it.environment, description := it.description
    comment := c.body
    comment_author := c.author
    comment_created := c.created }

/-- The rows contributed by one item: `if not item['comment_data']` a single
placeholder row, else one row per comment in order. -/
def rows_of (it : Item) : List Row :=
  match it.comment_data with
  | [] => [placeholder_row it]
  | cs => cs.map (comment_row it)

/-- The `formatted` accumulator loop of `format_dataframe`. -/
def format_go : List Row → List Item → List Row
  | acc, [] => acc
  | acc, it :: rest => format_go (acc ++ rows_of it) rest

/-- `format_dataframe(data)`: the flat row list handed to pandas. -/
def format_dataframe (data : List Item) : List Row :=
  format_go [] data

/-- One page response of the REST API path: the parsed JSON `issues` list
with the source-reported `total`, or a transport failure (non-200 status or
an exception from `requests`), which the code answers with `sys.exit(1)`. -/
inductive ApiResp where
  | ok (issues : List Val) (total : Nat)
  | bad
deriving DecidableEq

/-- A REST API issue source: a page response for every `(startAt, maxResults)`. -/
def ApiSrc : Type := Nat → Nat → ApiResp

/-- One page response of the jira-library path: the issue list returned by
`jira.search_issues`, or a raised exception, which the code answers with
`sys.exit(1)`. -/
inductive LibResp where
  | ok (issues : List Val)
  | exn
deriving DecidableEq

/-- A jira-library issue source: a page response for every `(startAt, maxResults)`. -/
def LibSrc : Type := Nat → Nat → LibResp

/-- The `while True` pagination loop of `fetch_via_api`, fuel-indexed:
request a page at `start`, extend the accumulator, advance `start` by the
number of records actually returned, and stop once `start_at >=
data.get('total', 0)`.  `none` means the loop was still running when the
fuel ran out; `some (.error ())` models `sys.exit(1)`. -/
def fetch_api_go (src : ApiSrc) (pageSize : Nat) :
    Nat → Nat → List Val → Option (Except Unit (List Val))
  | 0, _, _ => none
  | fuel + 1, start, acc =>
    match src start pageSize with
    | .bad => some (.error ())
    | .ok issues total =>
      let acc' := acc ++ issues
      let start' := start + issues.length
      if total ≤ start' then some (.ok acc')
      else fetch_api_go src pageSize fuel start' acc'

/-- `fetch_via_api`: run the pagination loop from offset 0 with an empty
accumulator.  The script hardcodes `max_results = 100`; the page size is a
parameter here so the loop can be analysed for every page size. -/
def fetch_via_api (src : ApiSrc) (pageSize fuel : Nat) : Option (Except Unit (List Val)) :=
  fetch_api_go src pageSize fuel 0 []

/-- The `while True` pagination loop of `fetch_via_library`, fuel-indexed:
request a page at `start_at`, extend, advance by the number of records
returned, and stop when a page returns fewer records than requested. -/
def fetch_lib_go (src : LibSrc) (blockSize : Nat) :
    Nat → Nat → List Val → Option (Except Unit (List Val))
  | 0, _, _ => none
  | fuel + 1, start, acc =>
    match src start blockSize with
    | .exn => some (.error ())
    | .ok issues =>
      let acc' := acc ++ issues
      let start' := start + issues.length
      if issues.length < blockSize then some (.ok acc')
      else fetch_lib_go src blockSize fuel start' acc'

/-- `fetch_via_library`: run the pagination loop from offset 0.  The script
hardcodes `block_size = 100`; the block size is a parameter here. -/
def fetch_via_library (src : LibSrc) (blockSize fuel : Nat) : Option (Except Unit (List Val)) :=
  fetch_lib_go src blockSize fuel 0 []

/-- An honest source holding `records`: every page request is answered with
the corresponding slice of the record list. -/
def sliceSrc (records : List Val) (start count : Nat) : List Val :=
  (records.drop start).take count

/-- An honest REST API source: slice pages and an accurate total. -/
def honestApiSrc (records : List Val) : ApiSrc :=
  fun start count => .ok (sliceSrc records start count) records.length

/-- An honest jira-library source: slice pages. -/
def honestLibSrc (records : List Val) : LibSrc :=
  fun start count => .ok (sliceSrc records start count)

/-- The API fetch phase followed by normalization, as `main` runs them:
`issues = fetch_via_api(...)` then `process_issues(issues)`.  A fetch error
aborts the run before normalization. -/
def run_api_pipeline (src : ApiSrc) (pageSize fuel : Nat) :
    Option (Except Unit (List Item)) :=
  match fetch_via_api src pageSize fuel with
  | some (.ok issues) => some (.ok (process_issues issues))
  | some (.error e) => some (.error e)
  | none => none

/-- The API pagination loop terminates on a source when some fuel suffices
for the loop to exit (normally or via `sys.exit`). -/
def apiTerminates (src : ApiSrc) (pageSize : Nat) : Prop :=
  ∃ fuel r, fetch_via_api src pageSize fuel = some r

/-- The library pagination loop terminates on a source when some fuel
suffices for the loop to exit (normally or via `sys.exit`). -/
def libTerminates (src : LibSrc) (blockSize : Nat) : Prop :=
  ∃ fuel r, fetch_via_library src blockSize fuel = some r

/-- An adversarial API source: every page comes back empty while the
reported total stays positive (an inaccurate total, as the spec's open
question allows). -/
def emptyPageSrc : ApiSrc := fun _ _ => .ok [] 1

/-- The final summary of `main`: `处理Issue数` is `len(issues)` (the raw
issues returned by the fetch) and `生成数据行` is `len(processed_data)` (the
records returned by `process_issues`). -/
def main_summary (issues : List Val) : Nat × Nat :=
  (issues.length, (process_issues issues).length)

/-- A value that is neither `None` nor the empty string ("real data or the
sentinel", as the spec's invariant puts it). -/
abbrev goodVal (v : Val) : Prop :=
  v ≠ Val.vnull ∧ v ≠ Val.vstr ""

/-- The field invariant `process_issues` establishes on a record: no field
is null, every field is non-empty, except that `created_month` may be the
empty string — and then only because `created` is an unparseable string
shorter than six characters (`created[5:7]` slicing past its end). -/
abbrev goodItem (it : Item) : Prop :=
  goodVal it.key ∧ goodVal it.type ∧ goodVal it.summary ∧ goodVal it.created ∧
  goodVal it.created_year ∧
  (it.created_month ≠ Val.vnull ∧
    (it.created_month = Val.vstr "" →
      ∃ s, it.created = Val.vstr s ∧ s.length < 6 ∧ parseJiraTime s = none)) ∧
  goodVal it.status ∧ goodVal it.resolution ∧ goodVal it.environment ∧
  goodVal it.description ∧
  ∀ c ∈ it.comment_data, goodVal c.body ∧ goodVal c.author ∧ goodVal c.created

/-- The field invariant `format_dataframe` establishes on a row: no column
is null, the scalar columns inherit the record invariant (with the same
`created_month` exception), the comment column is non-empty (body or
marker), and either the row is a placeholder row — comment column exactly
the marker, comment author and comment created columns exactly the empty
string — or its comment author and comment created columns are non-null and
non-empty. -/
abbrev goodRow (r : Row) : Prop :=
  goodVal r.key ∧ goodVal r.type ∧ goodVal r.summary ∧ goodVal r.created ∧
  goodVal r.created_year ∧
  (r.created_month ≠ Val.vnull ∧
    (r.created_month = Val.vstr "" →
      ∃ s, r.created = Val.vstr s ∧ s.length < 6 ∧ parseJiraTime s = none)) ∧
  goodVal r.status ∧ goodVal r.resolution ∧ goodVal r.environment ∧
  goodVal r.description ∧ goodVal r.comment ∧
  ((r.comment = Val.vstr "该issue无comment" ∧ r.comment_author = Val.vstr "" ∧
      r.comment_created = Val.vstr "") ∨
    (goodVal r.comment_author ∧ goodVal r.comment_created))

/-- The ten scalar base fields of a record, in column order. -/
def itemScalars (it : Item) : List Val :=
  [it.key, it.type, it.summary, it.created, it.created_year, it.created_month,
   it.status, it.resolution, it.environment, it.description]

/-- The ten scalar base columns of a row, in column order. -/
def rowScalars (r : Row) : List Val :=
  [r.key, r.type, r.summary, r.created, r.created_year, r.created_month,
   r.status, r.resolution, r.environment, r.description]

/-- A record whose scalar fields are all the sentinel, with a given comment
list; used to instantiate the row-expansion theorems. -/
def itemWithComments (cs : List CommentR) : Item :=
  { key := sentinelV, type := sentinelV, summary := sentinelV, created := sentinelV
    created_year := sentinelV, created_month := sentinelV, status := sentinelV
    resolution := sentinelV, environment := sentinelV, description := sentinelV
    comments := Val.vlist [], comment_data := cs }

/-- A comment record whose fields are all the sentinel. -/
def sentinelComment : CommentR :=
  { body := sentinelV, author := sentinelV, created := sentinelV }

/-- The record `process_issues` produces from the empty raw dict `{}`. -/
def blankItem : Item :=
  itemWithComments []

/-- An API source whose every request fails at the transport level. -/
def badApiSrc : ApiSrc := fun _ _ => .bad

/-- A library source whose every request raises. -/
def badLibSrc : LibSrc := fun _ _ => .exn

/-- A raw issue with two comments and nothing else. -/
def twoCommentIssue : Val :=
  Val.vdict [("fields", Val.vdict [("comment", Val.vdict [("comments",
    Val.vlist [Val.vdict [("body", Val.vstr "a")], Val.vdict [("body", Val.vstr "b")]])])])]

-- ======================================================================
-- Theorems
-- ======================================================================

theorem sentinelS_ne_empty : sentinelS ≠ "" := by decide

theorem sentinelV_not_null : sentinelV ≠ Val.vnull := by decide

theorem sentinelV_not_empty : sentinelV ≠ Val.vstr "" := by decide

/-- The final null/empty filter evaluated at the sentinel returns the
sentinel (the sentinel string is neither `None` nor empty). -/
theorem sgFinal_sentinel : sgFinal sentinelV sentinelV = sentinelV := by decide

/-- The final filter of `safe_get` never lets `None` or `""` through when the
default itself is neither. -/
theorem sgFinal_good (dflt d : Val) (h1 : dflt ≠ Val.vnull) (h2 : dflt ≠ Val.vstr "") :
    sgFinal dflt d ≠ Val.vnull ∧ sgFinal dflt d ≠ Val.vstr "" := by
  unfold sgFinal
  cases hb : (Val.beq d Val.vnull || Val.beq d (Val.vstr "")) with
  | true => simpa using ⟨h1, h2⟩
  | false =>
    simp only [Bool.false_eq_true, if_false]
    rw [Bool.or_eq_false_iff] at hb
    exact ⟨(Val.beq_eq_false_iff d Val.vnull).mp hb.1, (Val.beq_eq_false_iff d (Val.vstr "")).mp hb.2⟩

/-- Characterisation of the `safe_get` loop against the specification-level
descent: the result is the fully descended value passed through the final
null/empty filter, or the sentinel when the descent fails anywhere. -/
theorem safe_get_go_spec : ∀ (rest : List String) (d : Val),
    safe_get_go sentinelV d rest =
      (match descendPath d rest with
       | some v => sgFinal sentinelV v
       | none => sentinelV)
  | [], d => by simp [safe_get_go, descendPath]
  | k :: rest, d => by
    cases d with
    | vdict es =>
      simp only [safe_get_go, descendPath]
      cases hfind : dictGet es k with
      | none =>
        simp only [Option.getD_none, Val.beq_self, if_true]
        exact sgFinal_sentinel
      | some v =>
        simp only [Option.getD_some]
        by_cases hv : v = sentinelV
        · subst hv
          rw [Val.beq_self]
          simp only [if_true, sgFinal_sentinel]
          cases rest with
          | nil =>
            simp only [descendPath]
            exact sgFinal_sentinel.symm
          | cons k' rest' => simp [descendPath, sentinelV]
        · rw [(Val.beq_eq_false_iff v sentinelV).mpr hv]
          simp only [Bool.false_eq_true, if_false]
          exact safe_get_go_spec rest v
    | vnull => simp [safe_get_go, descendPath]
    | vbool b => simp [safe_get_go, descendPath]
    | vint n => simp [safe_get_go, descendPath]
    | vstr s => simp [safe_get_go, descendPath]
    | vlist l => simp [safe_get_go, descendPath]

/-- With the sentinel default, `safe_get` never returns `None` and never
returns the empty string. -/
theorem safe_get_good (d : Val) (keys : String) :
    safe_get d keys sentinelV ≠ Val.vnull ∧ safe_get d keys sentinelV ≠ Val.vstr "" := by
  unfold safe_get
  rw [safe_get_go_spec]
  cases descendPath d (splitDots keys) with
  | none => exact ⟨sentinelV_not_null, sentinelV_not_empty⟩
  | some v => exact sgFinal_good sentinelV v sentinelV_not_null sentinelV_not_empty

/-- Claim C3: `safe_get` is total over every input value and dotted path; it
returns either the value found by descending the path key-by-key (filtered
through the final null/empty check) or the sentinel, the sentinel being
produced exactly when the descent hits a non-dict or an absent key or the
final value is null or the empty string; with the sentinel default the result
is never null and never the empty string. -/
theorem safe_get_total_spec (d : Val) (keys : String) :
    (safe_get d keys sentinelV =
      (match descendPath d (splitDots keys) with
       | some v => sgFinal sentinelV v
       | none => sentinelV)) ∧
    safe_get d keys sentinelV ≠ Val.vnull ∧
    safe_get d keys sentinelV ≠ Val.vstr "" :=
  ⟨safe_get_go_spec (splitDots keys) d, safe_get_good d keys⟩

/-- The accumulator loop of `format_dataframe` appends, per item in order,
exactly the rows `rows_of` describes. -/
theorem format_go_eq : ∀ (data : List Item) (acc : List Row),
    format_go acc data = acc ++ data.flatMap rows_of
  | [], acc => by simp [format_go]
  | it :: rest, acc => by
    simp only [format_go, List.flatMap_cons]
    rw [format_go_eq rest (acc ++ rows_of it), List.append_assoc]

theorem format_dataframe_flatMap (data : List Item) :
    format_dataframe data = data.flatMap rows_of := by
  simp [format_dataframe, format_go_eq]

/-- Each item contributes `max 1 M` rows, `M` its comment count. -/
theorem rows_of_length (it : Item) :
    (rows_of it).length = max 1 it.comment_data.length := by
  unfold rows_of
  cases h : it.comment_data with
  | nil => simp
  | cons c cs => simp [Nat.max_eq_right (Nat.succ_le_succ (Nat.zero_le cs.length))]

theorem format_dataframe_length : ∀ data : List Item,
    (format_dataframe data).length = (data.map (fun it => max 1 it.comment_data.length)).sum
  | [] => by simp [format_dataframe, format_go]
  | it :: rest => by
    rw [format_dataframe_flatMap] at *
    simp only [List.flatMap_cons, List.length_append, List.map_cons, List.sum_cons,
      rows_of_length]
    rw [← format_dataframe_flatMap, format_dataframe_length rest]

theorem format_dataframe_ge (data : List Item) :
    data.length ≤ (format_dataframe data).length := by
  rw [format_dataframe_length]
  induction data with
  | nil => simp
  | cons it rest ih =>
    simp only [List.map_cons, List.sum_cons, List.length_cons]
    omega

/-- Every row of an item copies that item's scalar fields unchanged. -/
theorem rows_of_scalars (it : Item) (r : Row) (h : r ∈ rows_of it) :
    rowScalars r = itemScalars it := by
  unfold rows_of at h
  cases hc : it.comment_data with
  | nil =>
    rw [hc] at h
    simp only [List.mem_singleton] at h
    subst h
    rfl
  | cons c cs =>
    rw [hc] at h
    simp only [List.mem_map] at h
    obtain ⟨x, _, hx⟩ := h
    subst hx
    rfl

/-- Claim C2: `format_dataframe` expands each record, in order, into
`max 1 M` rows (`M` the record's comment count): one placeholder row when
there are no comments, one row per comment (in comment order, all sharing
the record's scalar fields) otherwise; hence the row count is the sum of
the per-record `max 1 M` and is at least the record count (so comment
counts `[0, 1, 3]` yield `5` rows). -/
theorem row_expansion_law (data : List Item) :
    format_dataframe data = data.flatMap rows_of ∧
    (format_dataframe data).length = (data.map (fun it => max 1 it.comment_data.length)).sum ∧
    data.length ≤ (format_dataframe data).length ∧
    (∀ it r, r ∈ rows_of it → rowScalars r = itemScalars it) ∧
    (∀ it : Item, (rows_of it).length = max 1 it.comment_data.length) :=
  ⟨format_dataframe_flatMap data, format_dataframe_length data, format_dataframe_ge data,
   fun it r h => rows_of_scalars it r h, rows_of_length⟩

/-- Witness for C2 at comment counts `[0, 1, 3]`: five rows come out, and a
concrete row shares its item's scalar fields. -/
theorem row_expansion_law_witness :
    (format_dataframe [itemWithComments [], itemWithComments [sentinelComment],
      itemWithComments [sentinelComment, sentinelComment, sentinelComment]]).length = 5 ∧
    rowScalars (placeholder_row (itemWithComments [])) = itemScalars (itemWithComments []) := by
  constructor
  · rw [(row_expansion_law [itemWithComments [], itemWithComments [sentinelComment],
      itemWithComments [sentinelComment, sentinelComment, sentinelComment]]).2.1]
    decide
  · exact (row_expansion_law [itemWithComments []]).2.2.2.1 (itemWithComments [])
      (placeholder_row (itemWithComments [])) (by decide)

/-- Claim C8 counterexample: on a zero-comment record the comment author
column of the single placeholder row is the empty string, not the
"no comments" marker the claim promises for every comment field. -/
theorem placeholder_marker_counterexample :
    (format_dataframe [itemWithComments []]).map (fun r => r.comment_author) = [Val.vstr ""] ∧
    (Val.vstr "" : Val) ≠ Val.vstr "该issue无comment" := by
  decide

/-- Claim C8 (amended): a zero-comment record yields exactly one row; its
comment column carries the "no comments" marker while the comment author and
comment created columns are set to the empty string. -/
theorem placeholder_row_fields (it : Item) (h : it.comment_data = []) :
    format_dataframe [it] =
      [{ key := it.key, type := it.type, summary := it.summary, created := it.created
         created_year := it.created_year, created_month := it.created_month
         status := it.status, resolution := it.resolution
         environment := it.environment, description := it.description
         comment := Val.vstr "该issue无comment"
         comment_author := Val.vstr ""
         comment_created := Val.vstr "" }] := by
  rw [format_dataframe_flatMap]
  simp only [List.flatMap_cons, List.flatMap_nil, List.append_nil]
  unfold rows_of
  rw [h]
  rfl

/-- Witness for the amended C8 at a concrete zero-comment record. -/
theorem placeholder_row_fields_witness :
    format_dataframe [itemWithComments []] =
      [{ key := sentinelV, type := sentinelV, summary := sentinelV, created := sentinelV
         created_year := sentinelV, created_month := sentinelV
         status := sentinelV, resolution := sentinelV
         environment := sentinelV, description := sentinelV
         comment := Val.vstr "该issue无comment"
         comment_author := Val.vstr ""
         comment_created := Val.vstr "" }] :=
  placeholder_row_fields (itemWithComments []) rfl

/-- `process_issues` keeps, in order, exactly the issues whose normalization
does not raise. -/
theorem process_issues_filterMap : ∀ issues : List Val,
    process_issues issues = issues.filterMap (fun i => (process_one i).toOption)
  | [] => rfl
  | i :: rest => by
    simp only [process_issues, List.filterMap_cons]
    cases h : process_one i with
    | ok item => simp [Except.toOption, h, process_issues_filterMap rest]
    | error e => simp [Except.toOption, h, process_issues_filterMap rest]

/-- Claim C5: normalization failures are isolated per issue: the output is
the in-order list of successfully normalized records, a failing issue is
dropped and the rest still appear (so with 3 issues of which the second
raises, the output holds the records of the first and third exactly), and
`process_issues` itself is a total function. -/
theorem per_issue_isolation :
    (∀ issues : List Val,
      process_issues issues = issues.filterMap (fun i => (process_one i).toOption)) ∧
    (∀ (i1 i2 i3 : Val) (r1 r3 : Item),
      process_one i1 = .ok r1 → process_one i2 = .error () → process_one i3 = .ok r3 →
      process_issues [i1, i2, i3] = [r1, r3]) := by
  refine ⟨process_issues_filterMap, ?_⟩
  intro i1 i2 i3 r1 r3 h1 h2 h3
  simp [process_issues, h1, h2, h3]

/-- Witness for C5: the middle issue (a non-dict, whose `issue.get` raises)
is skipped, the two well-formed issues around it survive in order. -/
theorem per_issue_isolation_witness :
    process_issues [Val.vdict [], Val.vstr "x", Val.vdict []] = [blankItem, blankItem] :=
  per_issue_isolation.2 (Val.vdict []) (Val.vstr "x") (Val.vdict []) blankItem blankItem
    (by decide) (by decide) (by decide)

theorem pad2_length (n : Nat) : (pad2 n).length = 2 := rfl

theorem yearStr_length_pos (y : Nat) : 1 ≤ (yearStr y).length := by
  unfold yearStr
  split
  · exact (by omega : (1 : Nat) ≤ 1)
  · split
    · exact (by omega : (1 : Nat) ≤ 2)
    · split
      · exact (by omega : (1 : Nat) ≤ 3)
      · exact (by omega : (1 : Nat) ≤ 4)

/-- The canonical rendering is the unpadded year followed by a fixed
15-character tail. -/
theorem strftimeCanon_length_eq (dt : PyDateTime) :
    (strftimeCanon dt).length = (yearStr dt.year).length + 15 := by
  have hd : ("-" : String).length = 1 := rfl
  have hsp : (" " : String).length = 1 := rfl
  have hc : (":" : String).length = 1 := rfl
  simp only [strftimeCanon, String.length_append, pad2_length, hd, hsp, hc]

theorem strftimeCanon_length_pos (dt : PyDateTime) : 1 ≤ (strftimeCanon dt).length := by
  have h1 := strftimeCanon_length_eq dt
  omega

theorem convert_time_eq (s : String) :
    convert_time (Val.vstr s) =
      (match parseJiraTime s with
       | some dt => Val.vstr (strftimeCanon dt)
       | none => Val.vstr s) := rfl

/-- `convert_time` preserves being neither null nor empty: it either
returns its input or a non-empty canonical string. -/
theorem convert_time_good (v : Val) (h : goodVal v) : goodVal (convert_time v) := by
  cases v with
  | vstr s =>
    rw [convert_time_eq]
    cases hp : parseJiraTime s with
    | none => exact h
    | some dt =>
      constructor
      · exact fun hh => Val.noConfusion hh
      · intro hh
        refine Val.noConfusion hh (fun h2 => ?_)
        have hpos := strftimeCanon_length_pos dt
        rw [h2] at hpos
        exact absurd hpos (by decide)
  | vnull => exact h
  | vbool b => exact h
  | vint n => exact h
  | vlist l => exact h
  | vdict es => exact h

/-- Every comment record built by the comment loop has non-null, non-empty
fields: each one comes from `safe_get` with the sentinel default
(`created` additionally through `convert_time`). -/
theorem commentsOf_good (v : Val) : ∀ c ∈ commentsOf v,
    goodVal c.body ∧ goodVal c.author ∧ goodVal c.created := by
  intro c hc
  cases v with
  | vlist l =>
    cases l with
    | nil => simp [commentsOf] at hc
    | cons x xs =>
      simp only [commentsOf, List.mem_map] at hc
      obtain ⟨y, _, hy⟩ := hc
      subst hy
      exact ⟨safe_get_good y "body", safe_get_good y "author.displayName",
        convert_time_good _ (safe_get_good y "created")⟩
  | vnull => simp [commentsOf] at hc
  | vbool b => simp [commentsOf] at hc
  | vint n => simp [commentsOf] at hc
  | vstr s => simp [commentsOf] at hc
  | vdict es => simp [commentsOf] at hc

/-- A 4-character prefix slice of a non-empty string is non-empty. -/
theorem take4_ne_empty (s : String) (hs : s ≠ "") :
    Val.vstr (String.mk ((s.data.drop 0).take 4)) ≠ Val.vstr "" := by
  intro hh
  refine Val.noConfusion hh (fun h2 => ?_)
  have hdata : (s.data.drop 0).take 4 = [] := congrArg String.data h2
  rw [List.drop_zero] at hdata
  rcases List.take_eq_nil_iff.mp hdata with h4 | hnil
  · exact absurd h4 (by decide)
  · exact hs (String.ext_iff.mpr hnil)

/-- A string produced by `convert_time` is either an unparseable string
returned unchanged or a canonical rendering of at least 16 characters. -/
theorem convert_time_vstr (x : Val) (s : String) (h : convert_time x = Val.vstr s) :
    parseJiraTime s = none ∨ 16 ≤ s.length := by
  cases x with
  | vstr t =>
    rw [convert_time_eq] at h
    cases hp : parseJiraTime t with
    | none =>
      rw [hp] at h
      refine Or.inl ?_
      refine Val.noConfusion h (fun h2 => ?_)
      rw [← h2]
      exact hp
    | some dt =>
      rw [hp] at h
      refine Or.inr ?_
      refine Val.noConfusion h (fun h2 => ?_)
      rw [← h2]
      have hlen := strftimeCanon_length_eq dt
      have hy := yearStr_length_pos dt.year
      omega
  | vnull => exact Val.noConfusion h
  | vbool b => exact Val.noConfusion h
  | vint n => exact Val.noConfusion h
  | vlist l => exact Val.noConfusion h
  | vdict es => exact Val.noConfusion h

/-- If the `created[5:7]` slice of a `convert_time` output is empty, that
output is an unparseable string of fewer than six characters. -/
theorem month_slice_spec (x : Val) (s : String) (hx : convert_time x = Val.vstr s)
    (hh : Val.vstr (String.mk ((s.data.drop 5).take (7 - 5))) = Val.vstr "") :
    ∃ t, Val.vstr s = Val.vstr t ∧ t.length < 6 ∧ parseJiraTime t = none := by
  refine Val.noConfusion hh (fun h2 => ?_)
  have hdata : (s.data.drop 5).take (7 - 5) = [] := congrArg String.data h2
  have hlen5 : s.data.length ≤ 5 := by
    rcases List.take_eq_nil_iff.mp hdata with h0 | hnil
    · exact absurd h0 (by decide)
    · have hh2 := congrArg List.length hnil
      rw [List.length_drop, List.length_nil] at hh2
      omega
  have hslen : s.length ≤ 5 := hlen5
  rcases convert_time_vstr x s hx with hn | hbig
  · exact ⟨s, rfl, by omega, hn⟩
  · omega

/-- Any record that `process_one` successfully produces satisfies the field
invariant `goodItem`. -/
theorem process_one_good (issue : Val) (it : Item) (h : process_one issue = .ok it) :
    goodItem it := by
  cases issue with
  | vdict es =>
    simp only [process_one] at h
    set F := (dictGet es "fields").getD (Val.vdict []) with hF
    set CV := convert_time (safe_get F "created" sentinelV) with hCV
    have hgood : goodVal CV := convert_time_good _ (safe_get_good F "created")
    cases hb : Val.beq CV sentinelV with
    | true =>
      rw [hb] at h
      simp only [if_true] at h
      injection h with h'
      subst h'
      refine ⟨safe_get_good (Val.vdict es) "key", safe_get_good F "issuetype.name",
        safe_get_good F "summary", hgood, ⟨sentinelV_not_null, sentinelV_not_empty⟩,
        ⟨sentinelV_not_null, fun hh => absurd hh sentinelV_not_empty⟩,
        safe_get_good F "status.name", safe_get_good F "resolution.name",
        safe_get_good F "environment", safe_get_good F "description",
        commentsOf_good (safe_get F "comment.comments" (Val.vlist []))⟩
    | false =>
      rw [hb] at h
      simp only [Bool.false_eq_true, if_false] at h
      clear_value CV
      cases CV with
      | vstr s =>
        simp only [pySliceVal] at h
        injection h with h'
        subst h'
        refine ⟨safe_get_good (Val.vdict es) "key", safe_get_good F "issuetype.name",
          safe_get_good F "summary", hgood, ?_, ?_,
          safe_get_good F "status.name", safe_get_good F "resolution.name",
          safe_get_good F "environment", safe_get_good F "description", commentsOf_good (safe_get F "comment.comments" (Val.vlist []))⟩
        · exact ⟨fun hh => Val.noConfusion hh, take4_ne_empty s (fun he => hgood.2 (by rw [he]))⟩
        · exact ⟨fun hh => Val.noConfusion hh,
            fun hh => month_slice_spec (safe_get F "created" sentinelV) s hCV.symm hh⟩
      | vlist l =>
        simp only [pySliceVal] at h
        injection h with h'
        subst h'
        refine ⟨safe_get_good (Val.vdict es) "key", safe_get_good F "issuetype.name",
          safe_get_good F "summary", hgood, ?_, ?_,
          safe_get_good F "status.name", safe_get_good F "resolution.name",
          safe_get_good F "environment", safe_get_good F "description", commentsOf_good (safe_get F "comment.comments" (Val.vlist []))⟩
        · exact ⟨fun hh => Val.noConfusion hh, fun hh => Val.noConfusion hh⟩
        · exact ⟨fun hh => Val.noConfusion hh, fun hh => Val.noConfusion hh⟩
      | vnull => simp [pySliceVal] at h
      | vbool b => simp [pySliceVal] at h
      | vint n => simp [pySliceVal] at h
      | vdict es2 => simp [pySliceVal] at h
  | vnull => simp [process_one] at h
  | vbool b => simp [process_one] at h
  | vint n => simp [process_one] at h
  | vstr s => simp [process_one] at h
  | vlist l => simp [process_one] at h

/-- Every record `process_issues` outputs satisfies the field invariant. -/
theorem process_issues_good (issues : List Val) : ∀ it ∈ process_issues issues, goodItem it := by
  induction issues with
  | nil => intro it h; simp [process_issues] at h
  | cons i rest ih =>
    intro it h
    simp only [process_issues] at h
    cases hp : process_one i with
    | ok r =>
      rw [hp] at h
      rcases List.mem_cons.mp h with he | hm
      · exact he ▸ process_one_good i r hp
      · exact ih it hm
    | error e =>
      rw [hp] at h
      exact ih it h

/-- Every row expanded from a record satisfying the field invariant
satisfies the row invariant. -/
theorem rows_of_good (it : Item) (hgood : goodItem it) : ∀ r ∈ rows_of it, goodRow r := by
  obtain ⟨hkey, htype, hsum, hcre, hcy, hcm, hst, hres, henv, hdesc, hcom⟩ := hgood
  intro r hr
  unfold rows_of at hr
  cases hc : it.comment_data with
  | nil =>
    rw [hc] at hr
    simp only [List.mem_singleton] at hr
    subst hr
    exact ⟨hkey, htype, hsum, hcre, hcy, hcm, hst, hres, henv, hdesc,
      ⟨fun hh => Val.noConfusion hh,
        fun hh => Val.noConfusion hh (fun h2 => absurd h2 (by decide))⟩,
      Or.inl ⟨rfl, rfl, rfl⟩⟩
  | cons c cs =>
    rw [hc] at hr
    simp only [List.mem_map] at hr
    obtain ⟨x, hx, hxe⟩ := hr
    subst hxe
    have hxg := hcom x (by rw [hc]; exact hx)
    exact ⟨hkey, htype, hsum, hcre, hcy, hcm, hst, hres, henv, hdesc,
      hxg.1, Or.inr ⟨hxg.2.1, hxg.2.2⟩⟩

/-- Claim C4 counterexample: a raw issue whose `created` field is the
unparseable 3-character string `"abc"` normalizes to a record whose
`created_month` field is the empty string (`"abc"[5:7] == ""`), which is
neither real data nor the sentinel. -/
theorem normalized_fields_counterexample :
    (process_issues [Val.vdict [("fields", Val.vdict [("created", Val.vstr "abc")])]]).map
      (fun it => it.created_month) = [Val.vstr ""] ∧
    (Val.vstr "" : Val) ≠ sentinelV := by
  decide

/-- Claim C4 (amended): no field of a normalized record or export row is
ever null, and every field is also non-empty, with exactly two exceptions:
`created_month` may be the empty string, and then only because `created` is
an unparseable string shorter than six characters; and on placeholder rows
(whose comment column is exactly the marker) the comment author and comment
created columns are exactly the empty string, while on comment rows those
columns are non-null and non-empty. -/
theorem normalized_fields_amended (issues : List Val) :
    (∀ it ∈ process_issues issues, goodItem it) ∧
    (∀ r ∈ format_dataframe (process_issues issues), goodRow r) := by
  refine ⟨process_issues_good issues, ?_⟩
  intro r hr
  rw [format_dataframe_flatMap, List.mem_flatMap] at hr
  obtain ⟨it, hit, hr⟩ := hr
  exact rows_of_good it (process_issues_good issues it hit) r hr

/-- Witness for the amended C4: the record normalized from the empty raw
dict satisfies the field invariant. -/
theorem normalized_fields_witness : goodItem blankItem :=
  (normalized_fields_amended [Val.vdict []]).1 blankItem (by decide)

/-- On an honest source the API pagination loop, started anywhere with any
accumulator and enough fuel, returns the accumulator followed by every
remaining record. -/
theorem fetch_api_go_honest (records : List Val) (P : Nat) (hP : 0 < P) :
    ∀ (fuel start : Nat) (acc : List Val), records.length - start < fuel →
      fetch_api_go (honestApiSrc records) P fuel start acc =
        some (.ok (acc ++ records.drop start)) := by
  intro fuel
  induction fuel with
  | zero => intro start acc hlt; omega
  | succ fuel ih =>
    intro start acc hlt
    simp only [fetch_api_go, honestApiSrc, sliceSrc]
    have hlen : ((records.drop start).take P).length = min P (records.length - start) := by
      rw [List.length_take, List.length_drop]
    have hminP : min P (records.length - start) ≤ P := Nat.min_le_left _ _
    have hminR : min P (records.length - start) ≤ records.length - start := Nat.min_le_right _ _
    by_cases hstop : records.length ≤ start + ((records.drop start).take P).length
    · rw [if_pos hstop]
      have htake : (records.drop start).take P = records.drop start := by
        apply List.take_of_length_le
        rw [List.length_drop]
        rw [hlen] at hstop
        omega
      rw [htake]
    · rw [if_neg hstop]
      rw [hlen] at hstop
      have hfull : min P (records.length - start) = P := by omega
      rw [ih (start + ((records.drop start).take P).length) (acc ++ (records.drop start).take P)
        (by rw [hlen, hfull]; omega)]
      rw [hlen, hfull, List.append_assoc]
      have hsplit : (records.drop start).take P ++ records.drop (start + P) = records.drop start := by
        rw [← List.drop_drop]
        exact List.take_append_drop P (records.drop start)
      rw [hsplit]

/-- On an honest source the library pagination loop, started anywhere with
any accumulator and enough fuel, returns the accumulator followed by every
remaining record. -/
theorem fetch_lib_go_honest (records : List Val) (P : Nat) (hP : 0 < P) :
    ∀ (fuel start : Nat) (acc : List Val), records.length - start < fuel →
      fetch_lib_go (honestLibSrc records) P fuel start acc =
        some (.ok (acc ++ records.drop start)) := by
  intro fuel
  induction fuel with
  | zero => intro start acc hlt; omega
  | succ fuel ih =>
    intro start acc hlt
    simp only [fetch_lib_go, honestLibSrc, sliceSrc]
    have hlen : ((records.drop start).take P).length = min P (records.length - start) := by
      rw [List.length_take, List.length_drop]
    by_cases hstop : ((records.drop start).take P).length < P
    · rw [if_pos hstop]
      have htake : (records.drop start).take P = records.drop start := by
        apply List.take_of_length_le
        rw [List.length_drop]
        rw [hlen] at hstop
        have hminP : min P (records.length - start) ≤ P := Nat.min_le_left _ _
        have hminR : min P (records.length - start) ≤ records.length - start := Nat.min_le_right _ _
        omega
      rw [htake]
    · rw [if_neg hstop]
      rw [hlen] at hstop
      have hfull : min P (records.length - start) = P := by
        have hminP : min P (records.length - start) ≤ P := Nat.min_le_left _ _
        omega
      rw [ih (start + ((records.drop start).take P).length) (acc ++ (records.drop start).take P)
        (by rw [hlen, hfull]; have := Nat.min_le_right P (records.length - start); omega)]
      rw [hlen, hfull, List.append_assoc]
      have hsplit : (records.drop start).take P ++ records.drop (start + P) = records.drop start := by
        rw [← List.drop_drop]
        exact List.take_append_drop P (records.drop start)
      rw [hsplit]

/-- Both fetch loops, run on an honest source with fuel one more than the
record count, return the complete record list. -/
theorem fetch_complete_honest (records : List Val) (P : Nat) (hP : 0 < P) :
    fetch_via_library (honestLibSrc records) P (records.length + 1) = some (.ok records) ∧
    fetch_via_api (honestApiSrc records) P (records.length + 1) = some (.ok records) := by
  constructor
  · have h := fetch_lib_go_honest records P hP (records.length + 1) 0 [] (by omega)
    simpa using h
  · have h := fetch_api_go_honest records P hP (records.length + 1) 0 [] (by omega)
    simpa using h

/-- Claim C1: over an honest source holding `records`, both fetch paths
(with fuel one more than the record count) return exactly the full record
list — every record once, in source order, no duplicates, no gaps — for
every page size `P ≥ 1`, including `P ≥ N` and `P = 1`. -/
theorem pagination_complete (records : List Val) (P : Nat) (hP : 0 < P) :
    fetch_via_library (honestLibSrc records) P (records.length + 1) = some (.ok records) ∧
    fetch_via_api (honestApiSrc records) P (records.length + 1) = some (.ok records) :=
  fetch_complete_honest records P hP

/-- Witness for C1: five records, page size 2, fuel 6: both paths return
all five records in order. -/
theorem pagination_complete_witness :
    fetch_via_library (honestLibSrc [Val.vint 1, Val.vint 2, Val.vint 3, Val.vint 4, Val.vint 5])
      2 6 = some (.ok [Val.vint 1, Val.vint 2, Val.vint 3, Val.vint 4, Val.vint 5]) ∧
    fetch_via_api (honestApiSrc [Val.vint 1, Val.vint 2, Val.vint 3, Val.vint 4, Val.vint 5])
      2 6 = some (.ok [Val.vint 1, Val.vint 2, Val.vint 3, Val.vint 4, Val.vint 5]) :=
  pagination_complete [Val.vint 1, Val.vint 2, Val.vint 3, Val.vint 4, Val.vint 5] 2 (by decide)

/-- Claim C6: a transport failure at the current page aborts either fetch
loop at once with an error outcome, discarding any partial accumulator; and
in the fetch-then-normalize pipeline a failing fetch yields an error before
`process_issues` touches anything. -/
theorem transport_failure_aborts (asrc : ApiSrc) (lsrc : LibSrc) (P fuel start : Nat)
    (acc : List Val) :
    (asrc start P = .bad → fetch_api_go asrc P (fuel + 1) start acc = some (.error ())) ∧
    (lsrc start P = .exn → fetch_lib_go lsrc P (fuel + 1) start acc = some (.error ())) ∧
    (asrc 0 P = .bad → run_api_pipeline asrc P (fuel + 1) = some (.error ())) := by
  refine ⟨?_, ?_, ?_⟩
  · intro h
    simp [fetch_api_go, h]
  · intro h
    simp [fetch_lib_go, h]
  · intro h
    unfold run_api_pipeline fetch_via_api
    simp [fetch_api_go, h]

/-- Witness for C6 at concrete always-failing sources. -/
theorem transport_failure_aborts_witness :
    fetch_via_api badApiSrc 100 1 = some (.error ()) ∧
    fetch_via_library badLibSrc 100 1 = some (.error ()) ∧
    run_api_pipeline badApiSrc 100 1 = some (.error ()) := by
  have h := transport_failure_aborts badApiSrc badLibSrc 100 0 0 []
  exact ⟨h.1 rfl, h.2.1 rfl, h.2.2 rfl⟩

/-- On the adversarial empty-page source the API loop makes no progress:
every fuel runs out. -/
theorem fetch_api_go_emptyPage : ∀ (fuel : Nat) (acc : List Val),
    fetch_api_go emptyPageSrc 100 fuel 0 acc = none
  | 0, acc => rfl
  | fuel + 1, acc => by
    simp only [fetch_api_go, emptyPageSrc]
    norm_num
    exact fetch_api_go_emptyPage fuel acc

/-- Claim C7 counterexample: the claim quantifies over every source
behaviour, including empty pages with an inaccurate positive total; on the
source that always answers an empty page with total 1, the API pagination
loop never terminates (`start_at` stays 0 and never reaches the total). -/
theorem fetch_termination_counterexample : ¬ apiTerminates emptyPageSrc 100 := by
  rintro ⟨fuel, r, h⟩
  unfold fetch_via_api at h
  rw [fetch_api_go_emptyPage fuel []] at h
  exact Option.noConfusion h

/-- Claim C7 (amended): both pagination loops terminate on every honest
source (slice pages, accurate total) for every page size `P ≥ 1`; and the
library loop stops immediately whenever a page returns fewer records than
requested, whatever the source.  (Termination for arbitrary behaviours
fails: an empty page with a positive reported total loops forever.) -/
theorem fetch_termination_amended (records : List Val) (P : Nat) (hP : 0 < P) :
    libTerminates (honestLibSrc records) P ∧
    apiTerminates (honestApiSrc records) P ∧
    (∀ (src : LibSrc) (start fuel : Nat) (acc issues : List Val),
      src start P = .ok issues → issues.length < P →
      fetch_lib_go src P (fuel + 1) start acc = some (.ok (acc ++ issues))) := by
  refine ⟨?_, ?_, ?_⟩
  · exact ⟨records.length + 1, .ok records,
      (fetch_complete_honest records P hP).1⟩
  · exact ⟨records.length + 1, .ok records,
      (fetch_complete_honest records P hP).2⟩
  · intro src start fuel acc issues hok hlt
    simp [fetch_lib_go, hok, hlt]

/-- Witness for the amended C7 at a concrete source and page size. -/
theorem fetch_termination_amended_witness :
    libTerminates (honestLibSrc [Val.vint 1]) 1 ∧ apiTerminates (honestApiSrc [Val.vint 1]) 1 :=
  ⟨(fetch_termination_amended [Val.vint 1] 1 (by decide)).1,
   (fetch_termination_amended [Val.vint 1] 1 (by decide)).2.1⟩

/-- Claim C10 counterexample: the second summary figure is
`len(processed_data)` — the number of canonical records, not of export
rows.  On one raw issue carrying two comments the summary reports 1 while
row expansion produces 2 rows, so the two figures differ. -/
theorem summary_counts_counterexample :
    (main_summary [twoCommentIssue]).2 = 1 ∧
    (format_dataframe (process_issues [twoCommentIssue])).length = 2 ∧
    (main_summary [twoCommentIssue]).2 ≠
      (format_dataframe (process_issues [twoCommentIssue])).length := by
  decide

/-- Claim C10 (amended): the summary's first figure is exactly the number
of raw issues the fetch loop returned, and its second figure is exactly the
number of canonical records `process_issues` produced — a lower bound on
(not the count of) the export rows produced by row expansion. -/
theorem summary_counts_amended (issues : List Val) :
    (main_summary issues).1 = issues.length ∧
    (main_summary issues).2 = (process_issues issues).length ∧
    (main_summary issues).2 ≤ (format_dataframe (process_issues issues)).length := by
  refine ⟨rfl, rfl, ?_⟩
  exact format_dataframe_ge (process_issues issues)
